import Mathlib

set_option maxHeartbeats 1600000
set_option maxRecDepth 100000

/-
Verification development for the NES_Emulator repository
(src/src/hardware/cpu.rs and src/src/hardware/opcodes.rs).

Machine integers are modelled as `Nat` with explicit wraparound:
`u8` wrapping arithmetic is `% 256`, `u16` wrapping arithmetic is `% 65536`.
Rust panics (array indexing out of bounds, `.expect` on a missing opcode,
`todo` in an unimplemented dispatch arm, the unsupported-addressing-mode
case) are modelled as `Except.error` values of the `EmuError` type.
The memory array of the source is `[u8; 0xFFFF]`, an array of length
0xFFFF = 65535; it is modelled as a function `Nat → Nat` together with the
explicit bound check `addr < MEM_LEN` that Rust index checking performs.
-/

namespace NES

/-- Addressing mode tags, mirroring the `AddressingMode` enum in
src/src/hardware/opcodes.rs. -/
inductive AddressingMode where
  | Immediate
  | ZeroPage
  | ZeroPage_X
  | ZeroPage_Y
  | Absolute
  | Absolute_X
  | Absolute_Y
  | Indirect_X
  | Indirect_Y
  | NoneAddressing
  deriving DecidableEq

/-- Instruction descriptor, mirroring the tuple struct
`OpCode(name, byte count, cycle count, addressing mode)` in opcodes.rs. -/
structure OpCode where
  name : String
  byte_count : Nat
  cycle_count : Nat
  mode : AddressingMode

/-- Mirrors `impl From<u8> for OpCode` in opcodes.rs; the final panicking
match arm is modelled as `none`. -/
def OpCode.fromByte : Nat → Option OpCode
  | 0xAD => some ⟨"LDA", 3, 4, AddressingMode.Absolute⟩
  | 0xBD => some ⟨"LDA", 3, 4, AddressingMode.Absolute_X⟩
  | 0xB9 => some ⟨"LDA", 3, 4, AddressingMode.Absolute_Y⟩
  | 0xA9 => some ⟨"LDA", 2, 2, AddressingMode.Immediate⟩
  | 0xA1 => some ⟨"LDA", 2, 6, AddressingMode.Indirect_X⟩
  | 0xB1 => some ⟨"LDA", 2, 5, AddressingMode.Indirect_Y⟩
  | 0xA5 => some ⟨"LDA", 2, 3, AddressingMode.ZeroPage⟩
  | 0xB5 => some ⟨"LDA", 2, 4, AddressingMode.ZeroPage_X⟩
  | 0x8D => some ⟨"STA", 3, 4, AddressingMode.Absolute⟩
  | 0x9D => some ⟨"STA", 3, 5, AddressingMode.Absolute_X⟩
  | 0x99 => some ⟨"STA", 3, 5, AddressingMode.Absolute_Y⟩
  | 0x81 => some ⟨"STA", 2, 6, AddressingMode.Indirect_X⟩
  | 0x91 => some ⟨"STA", 2, 6, AddressingMode.Indirect_Y⟩
  | 0x85 => some ⟨"STA", 2, 3, AddressingMode.ZeroPage⟩
  | 0x95 => some ⟨"STA", 2, 4, AddressingMode.ZeroPage_X⟩
  | 0x6D => some ⟨"ADC", 3, 4, AddressingMode.Absolute⟩
  | 0x7D => some ⟨"ADC", 3, 4, AddressingMode.Absolute_X⟩
  | 0x79 => some ⟨"ADC", 3, 4, AddressingMode.Absolute_Y⟩
  | 0x69 => some ⟨"ADC", 2, 2, AddressingMode.Immediate⟩
  | 0x61 => some ⟨"ADC", 2, 6, AddressingMode.Indirect_X⟩
  | 0x71 => some ⟨"ADC", 2, 5, AddressingMode.Indirect_Y⟩
  | 0x65 => some ⟨"ADC", 2, 3, AddressingMode.ZeroPage⟩
  | 0x75 => some ⟨"ADC", 2, 4, AddressingMode.ZeroPage_X⟩
  | 0x00 => some ⟨"BRK", 1, 7, AddressingMode.NoneAddressing⟩
  | 0xAA => some ⟨"TAX", 1, 2, AddressingMode.NoneAddressing⟩
  | 0xE8 => some ⟨"INX", 1, 2, AddressingMode.NoneAddressing⟩
  | _ => none

/-- The `valid_codes` vector used to build `OPCODES_MAP` in opcodes.rs. -/
def valid_codes : List Nat :=
  [0xAD, 0xBD, 0xB9, 0xA9, 0xA1, 0xB1, 0xA5, 0xB5,
   0x8D, 0x9D, 0x99, 0x81, 0x91, 0x85, 0x95,
   0x6D, 0x7D, 0x79, 0x69, 0x61, 0x71, 0x65, 0x75,
   0x00,
   0xAA,
   0xE8]

/-- Lookup in the lazily built `OPCODES_MAP` hash map of opcodes.rs: the map
holds `OpCode::from(code)` exactly for the members of `valid_codes`, and
lookup of any other byte yields nothing. -/
def OPCODES_MAP (code : Nat) : Option OpCode :=
  if code ∈ valid_codes then OpCode.fromByte code else none

/-- The `STATUS_FLAGS` hash map of opcodes.rs, from flag name to bit mask. -/
def STATUS_FLAGS : String → Option Nat
  | "CARRY" => some 0x01
  | "ZERO" => some 0x02
  | "INTERRUPT_DISABLE" => some 0x04
  | "DECIMAL_MODE" => some 0x08
  | "BREAK" => some 0x10
  | "BREAK2" => some 0x20
  | "OVERFLOW" => some 0x40
  | "NEGATIVE" => some 0x80
  | _ => none

/-- `const STACK_RESET: u8 = 0xFD` in cpu.rs. -/
def STACK_RESET : Nat := 0xFD

/-- Length of the memory array of cpu.rs: the field is `memory: [u8; 0xFFFF]`,
an array of 0xFFFF = 65535 bytes, so the valid indices are 0 .. 0xFFFE. -/
def MEM_LEN : Nat := 0xFFFF

/-- Errors modelling the panics of the source: a Rust index-out-of-bounds on
the memory array, the `.expect` failure on an opcode missing from
`OPCODES_MAP`, the `todo` arms of the dispatch match, and the
unsupported-addressing-mode case of `get_operand_address`. -/
inductive EmuError where
  | indexOutOfBounds (addr : Nat)
  | unknownOpcode (code : Nat)
  | unimplementedOpcode (name : String)
  | unsupportedAddressingMode
  deriving DecidableEq

/-- The `CPU` struct of cpu.rs.  All registers are byte valued (`u8`) except
the 16-bit `program_counter`; `memory` is the 0xFFFF-byte array, modelled as
a function from addresses to byte values. -/
structure CPU where
  register_a : Nat
  register_x : Nat
  register_y : Nat
  status : Nat
  stack_pointer : Nat
  program_counter : Nat
  memory : Nat → Nat

/-- `CPU::new` in cpu.rs. -/
def CPU.new : CPU :=
  { register_a := 0
    register_x := 0
    register_y := 0
    status := 0b00100100
    stack_pointer := STACK_RESET
    program_counter := 0
    memory := fun _ => 0 }

/-- `u8` wrapping addition. -/
def wadd8 (a b : Nat) : Nat := (a + b) % 256

/-- `u8` wrapping subtraction. -/
def wsub8 (a b : Nat) : Nat := (a % 256 + 256 - b % 256) % 256

/-- `u16` wrapping addition. -/
def wadd16 (a b : Nat) : Nat := (a + b) % 65536

/-- `CPU::mem_read`: `self.memory[addr as usize]`, with the Rust bound check
of the index against the array length made explicit. -/
def CPU.mem_read (self : CPU) (addr : Nat) : Except EmuError Nat :=
  if addr < MEM_LEN then Except.ok (self.memory addr)
  else Except.error (EmuError.indexOutOfBounds addr)

/-- `CPU::mem_read_u16`: little-endian 16-bit read. -/
def CPU.mem_read_u16 (self : CPU) (memory_pos : Nat) : Except EmuError Nat :=
  match self.mem_read memory_pos with
  | Except.error e => Except.error e
  | Except.ok lo =>
    match self.mem_read (memory_pos + 1) with
    | Except.error e => Except.error e
    | Except.ok hi => Except.ok ((hi <<< 8) ||| lo)

/-- `CPU::mem_write`: `self.memory[addr as usize] = data`, with the Rust
bound check made explicit. -/
def CPU.mem_write (self : CPU) (addr data : Nat) : Except EmuError CPU :=
  if addr < MEM_LEN then
    Except.ok { self with memory := fun a => if a = addr then data else self.memory a }
  else Except.error (EmuError.indexOutOfBounds addr)

/-- `CPU::mem_write_u16`: little-endian 16-bit write, low byte first. -/
def CPU.mem_write_u16 (self : CPU) (memory_pos data : Nat) : Except EmuError CPU :=
  match self.mem_write memory_pos (data % 256) with
  | Except.error e => Except.error e
  | Except.ok s1 => s1.mem_write (memory_pos + 1) ((data >>> 8) % 256)

/-- `CPU::get_operand_address` in cpu.rs.  The method takes `&self`, so it
cannot change any processor state; the `NoneAddressing` arm panics in the
source and is an error here. -/
def CPU.get_operand_address (self : CPU) (mode : AddressingMode) : Except EmuError Nat :=
  match mode with
  | AddressingMode.Absolute => self.mem_read_u16 self.program_counter
  | AddressingMode.Absolute_X =>
    match self.mem_read_u16 self.program_counter with
    | Except.error e => Except.error e
    | Except.ok base => Except.ok (wadd16 base self.register_x)
  | AddressingMode.Absolute_Y =>
    match self.mem_read_u16 self.program_counter with
    | Except.error e => Except.error e
    | Except.ok base => Except.ok (wadd16 base self.register_y)
  | AddressingMode.Immediate => Except.ok self.program_counter
  | AddressingMode.Indirect_X =>
    match self.mem_read self.program_counter with
    | Except.error e => Except.error e
    | Except.ok base =>
      let ptr := wadd8 base self.register_x
      match self.mem_read ptr with
      | Except.error e => Except.error e
      | Except.ok lo =>
        match self.mem_read (wadd8 ptr 1) with
        | Except.error e => Except.error e
        | Except.ok hi => Except.ok ((hi <<< 8) ||| lo)
  | AddressingMode.Indirect_Y =>
    match self.mem_read self.program_counter with
    | Except.error e => Except.error e
    | Except.ok base =>
      match self.mem_read base with
      | Except.error e => Except.error e
      | Except.ok lo =>
        match self.mem_read (wadd8 base 1) with
        | Except.error e => Except.error e
        | Except.ok hi => Except.ok (wadd16 ((hi <<< 8) ||| lo) self.register_y)
  | AddressingMode.ZeroPage => self.mem_read self.program_counter
  | AddressingMode.ZeroPage_X =>
    match self.mem_read self.program_counter with
    | Except.error e => Except.error e
    | Except.ok pos => Except.ok (wadd8 pos self.register_x)
  | AddressingMode.ZeroPage_Y =>
    match self.mem_read self.program_counter with
    | Except.error e => Except.error e
    | Except.ok pos => Except.ok (wadd8 pos self.register_y)
  | AddressingMode.NoneAddressing => Except.error EmuError.unsupportedAddressingMode

/-- The status value computed by `CPU::update_zero_and_negative_flags`
from the old status and the result byte. -/
def uznfStatus (st result : Nat) : Nat :=
  let st1 := if result = 0 then st ||| 0b00000010 else st &&& 0b11111101
  if result &&& 0b10000000 ≠ 0 then st1 ||| 0b10000000 else st1 &&& 0b01111111

/-- `CPU::update_zero_and_negative_flags` in cpu.rs. -/
def CPU.update_zero_and_negative_flags (self : CPU) (result : Nat) : CPU :=
  { self with status := uznfStatus self.status result }

/-- The `carry_bit` local computed in `CPU::adc` and `CPU::sbc`:
`if self.status & 0b0000_0001 != 0 then 1 else 0`. -/
def CPU.carry_bit (self : CPU) : Nat :=
  if self.status &&& 0b00000001 ≠ 0 then 1 else 0

/-- `CPU::brk`: `self.status |= 0b0001_0100`. -/
def CPU.brk (self : CPU) : CPU :=
  { self with status := self.status ||| 0b00010100 }

/-- `CPU::inx`. -/
def CPU.inx (self : CPU) : CPU :=
  let s1 := { self with register_x := wadd8 self.register_x 1 }
  s1.update_zero_and_negative_flags s1.register_x

/-- `CPU::lda` (the debug printing of the source has no state effect). -/
def CPU.lda (self : CPU) (mode : AddressingMode) : Except EmuError CPU :=
  match self.get_operand_address mode with
  | Except.error e => Except.error e
  | Except.ok addr =>
    match self.mem_read addr with
    | Except.error e => Except.error e
    | Except.ok value =>
      let s1 := { self with register_a := value }
      Except.ok (s1.update_zero_and_negative_flags s1.register_a)

/-- `CPU::sta`. -/
def CPU.sta (self : CPU) (mode : AddressingMode) : Except EmuError CPU :=
  match self.get_operand_address mode with
  | Except.error e => Except.error e
  | Except.ok addr => self.mem_write addr self.register_a

/-- `CPU::tax`. -/
def CPU.tax (self : CPU) : CPU :=
  let s1 := { self with register_x := self.register_a }
  s1.update_zero_and_negative_flags s1.register_x

/-- `CPU::adc` in cpu.rs: wrapping add of operand and carry bit into the
accumulator; on `result <= current_accumulator_value` the status is or-ed
with `0b0100_0001` (CARRY and OVERFLOW together), otherwise and-ed with
`0b1011_1110`; then zero and negative flags are updated from the result. -/
def CPU.adc (self : CPU) (mode : AddressingMode) : Except EmuError CPU :=
  match self.get_operand_address mode with
  | Except.error e => Except.error e
  | Except.ok addr =>
    match self.mem_read addr with
    | Except.error e => Except.error e
    | Except.ok value =>
      let current_accumulator_value := self.register_a
      let result := wadd8 (wadd8 self.register_a value) self.carry_bit
      let s1 := { self with register_a := result }
      let s2 :=
        if result ≤ current_accumulator_value then
          { s1 with status := s1.status ||| 0b01000001 }
        else
          { s1 with status := s1.status &&& 0b10111110 }
      Except.ok (s2.update_zero_and_negative_flags result)

/-- `CPU::sbc` in cpu.rs: wrapping subtraction of the operand and of the
negated carry bit from the accumulator; the flag update line of the source
is commented out, so the status byte is left untouched. -/
def CPU.sbc (self : CPU) (mode : AddressingMode) : Except EmuError CPU :=
  match self.get_operand_address mode with
  | Except.error e => Except.error e
  | Except.ok addr =>
    match self.mem_read addr with
    | Except.error e => Except.error e
    | Except.ok value =>
      let result := wsub8 (wsub8 self.register_a value) (1 - self.carry_bit)
      Except.ok { self with register_a := result }

/-- `CPU::reset` in cpu.rs. -/
def CPU.reset (self : CPU) : Except EmuError CPU :=
  match self.mem_read_u16 0xFFFC with
  | Except.error e => Except.error e
  | Except.ok pc =>
    Except.ok { self with
      register_a := 0
      register_x := 0
      register_y := 0
      stack_pointer := STACK_RESET
      status := 0b00100100
      program_counter := pc }

/-- `CPU::load` in cpu.rs: `self.memory[0x8000 .. 0x8000 + program.len()]`
is overwritten with the program bytes (the slice operation panics when its
end exceeds the array length 0xFFFF), then 0x8000 is written little-endian
at the reset vector 0xFFFC. -/
def CPU.load (self : CPU) (program : List Nat) : Except EmuError CPU :=
  if 0x8000 + program.length ≤ MEM_LEN then
    let s1 := { self with memory := fun a =>
      (if 0x8000 ≤ a ∧ a < 0x8000 + program.length then program.getD (a - 0x8000) 0
       else self.memory a) }
    s1.mem_write_u16 0xFFFC 0x8000
  else Except.error (EmuError.indexOutOfBounds (0x8000 + program.length))

/-- The dispatch match of `CPU::run` on the mnemonic of the fetched opcode.
The arms implemented in the source are ADC, BRK, INX, LDA, SBC, STA and TAX;
every other arm is a `todo` panic, an error here. -/
def CPU.dispatch (self : CPU) (op : OpCode) : Except EmuError CPU :=
  match op.name with
  | "ADC" => self.adc op.mode
  | "BRK" => Except.ok self.brk
  | "INX" => Except.ok self.inx
  | "LDA" => self.lda op.mode
  | "SBC" => self.sbc op.mode
  | "STA" => self.sta op.mode
  | "TAX" => Except.ok self.tax
  | other => Except.error (EmuError.unimplementedOpcode other)

/-- One iteration of the loop body of `CPU::run`: fetch the byte at the
program counter, advance the program counter by one, look the byte up in
`OPCODES_MAP` (`.expect` failure when absent), dispatch on the mnemonic,
then advance the program counter by `byte_count - 1` when the handler left
it unchanged. -/
def CPU.step (self : CPU) : Except EmuError CPU :=
  match self.mem_read self.program_counter with
  | Except.error e => Except.error e
  | Except.ok register =>
    let s1 := { self with program_counter := wadd16 self.program_counter 1 }
    let current_prog_state := s1.program_counter
    match OPCODES_MAP register with
    | none => Except.error (EmuError.unknownOpcode register)
    | some op =>
      match s1.dispatch op with
      | Except.error e => Except.error e
      | Except.ok s2 =>
        if current_prog_state = s2.program_counter then
          Except.ok { s2 with program_counter := wadd16 s2.program_counter (op.byte_count - 1) }
        else Except.ok s2

/-- Outcome of a bounded unrolling of the loop of `CPU::run`: either the
loop returned (the exit `return` taken when `self.status & 0b0000_0100 != 0`
after an instruction), or the fuel ran out with the loop still going. -/
inductive RunOutcome where
  | halted (s : CPU)
  | outOfFuel (s : CPU)

/-- `CPU::run` in cpu.rs, with explicit fuel: after every instruction the
loop tests `self.status & 0b0000_0100 != 0` and returns when the test holds;
otherwise it repeats. -/
def CPU.run : Nat → CPU → Except EmuError RunOutcome
  | 0, s => Except.ok (RunOutcome.outOfFuel s)
  | fuel + 1, s =>
    match s.step with
    | Except.error e => Except.error e
    | Except.ok s1 =>
      if s1.status &&& 0b00000100 ≠ 0 then Except.ok (RunOutcome.halted s1)
      else CPU.run fuel s1

/-- `CPU::load_and_run` in cpu.rs: load, reset, run. -/
def CPU.load_and_run (self : CPU) (program : List Nat) (fuel : Nat) :
    Except EmuError RunOutcome :=
  match self.load program with
  | Except.error e => Except.error e
  | Except.ok s1 =>
    match s1.reset with
    | Except.error e => Except.error e
    | Except.ok s2 => CPU.run fuel s2

/-- Projection used to name the CPU state inside a successful `Except`. -/
def okState (d : CPU) : Except EmuError CPU → CPU
  | Except.ok s => s
  | Except.error _ => d

/-- Projection used to name the CPU state inside a halted run outcome. -/
def haltedState (d : CPU) : Except EmuError RunOutcome → CPU
  | Except.ok (RunOutcome.halted s) => s
  | _ => d

/-- Outcome of running the one-instruction program INX, which never touches
the BREAK flag. -/
def inxOutcome : Except EmuError RunOutcome := CPU.new.load_and_run [0xE8] 10

/-- Outcome of running the five-byte program of the repository test
`test_5_ops_working_together`. -/
def fiveOpsOutcome : Except EmuError RunOutcome :=
  CPU.new.load_and_run [0xA9, 0xC0, 0xAA, 0xE8, 0x00] 10

/-- State produced by ADC immediate on a fresh CPU. -/
def adcDemo : CPU := okState CPU.new (CPU.new.adc AddressingMode.Immediate)

/-- State produced by SBC immediate on a fresh CPU. -/
def sbcDemo : CPU := okState CPU.new (CPU.new.sbc AddressingMode.Immediate)

/-- State produced by loading the one-byte program [0] on a fresh CPU. -/
def loadedOne : CPU := okState CPU.new (CPU.new.load [0])

/-- State produced by resetting `loadedOne`. -/
def resetOne : CPU := okState CPU.new loadedOne.reset

/-- A CPU whose next fetched byte is 0x02, a byte with no opcode table entry. -/
def opcode02CPU : CPU := { CPU.new with memory := fun a => if a = 0 then 2 else 0 }

lemma and128_ne_iff : ∀ r, r < 256 → ((r &&& 128 ≠ 0) ↔ 128 ≤ r) := by decide

lemma shl8_or : ∀ h, h < 256 → ∀ l, l < 256 → (h <<< 8) ||| l = h * 256 + l := by decide

lemma mask_table : ∀ st, st < 256 →
    ((((st ||| 65) ||| 2) &&& 127) &&& 1 = 1) ∧
    ((((st ||| 65) ||| 2) &&& 127) &&& 64 = 64) ∧
    ((((st ||| 65) ||| 2) &&& 127) &&& 2 = 2) ∧
    ((((st ||| 65) ||| 2) &&& 127) &&& 128 = 0) ∧
    ((((st ||| 65) &&& 253) ||| 128) &&& 1 = 1) ∧
    ((((st ||| 65) &&& 253) ||| 128) &&& 64 = 64) ∧
    ((((st ||| 65) &&& 253) ||| 128) &&& 2 = 0) ∧
    ((((st ||| 65) &&& 253) ||| 128) &&& 128 = 128) ∧
    ((((st ||| 65) &&& 253) &&& 127) &&& 1 = 1) ∧
    ((((st ||| 65) &&& 253) &&& 127) &&& 64 = 64) ∧
    ((((st ||| 65) &&& 253) &&& 127) &&& 2 = 0) ∧
    ((((st ||| 65) &&& 253) &&& 127) &&& 128 = 0) ∧
    ((((st &&& 190) ||| 2) &&& 127) &&& 1 = 0) ∧
    ((((st &&& 190) ||| 2) &&& 127) &&& 64 = 0) ∧
    ((((st &&& 190) ||| 2) &&& 127) &&& 2 = 2) ∧
    ((((st &&& 190) ||| 2) &&& 127) &&& 128 = 0) ∧
    ((((st &&& 190) &&& 253) ||| 128) &&& 1 = 0) ∧
    ((((st &&& 190) &&& 253) ||| 128) &&& 64 = 0) ∧
    ((((st &&& 190) &&& 253) ||| 128) &&& 2 = 0) ∧
    ((((st &&& 190) &&& 253) ||| 128) &&& 128 = 128) ∧
    ((((st &&& 190) &&& 253) &&& 127) &&& 1 = 0) ∧
    ((((st &&& 190) &&& 253) &&& 127) &&& 64 = 0) ∧
    ((((st &&& 190) &&& 253) &&& 127) &&& 2 = 0) ∧
    ((((st &&& 190) &&& 253) &&& 127) &&& 128 = 0) := by decide

/-- Claim C1: the spec says `run` returns exactly when the BREAK flag (0x10)
is set after an instruction, and that a program that never sets BREAK runs
forever.  The code instead tests `status & 0b0000_0100`, the
INTERRUPT_DISABLE bit, which `reset` leaves set; so the one-instruction
program INX, which never touches BREAK, makes `run` return after a single
instruction with BREAK still clear.  This evaluates the code at that
failing input. -/
theorem run_halts_with_break_clear :
    inxOutcome = Except.ok (RunOutcome.halted (haltedState CPU.new inxOutcome)) ∧
    (haltedState CPU.new inxOutcome).status &&& 0b00010000 = 0 ∧
    (haltedState CPU.new inxOutcome).status &&& 0b00000100 ≠ 0 ∧
    (haltedState CPU.new inxOutcome).register_x = 1 :=
  ⟨rfl, by decide, by decide, rfl⟩

/-- Claim C2: the spec (and the repository test `test_5_ops_working_together`)
say the program [0xA9, 0xC0, 0xAA, 0xE8, 0x00] ends with X = 0xC1; the code
instead halts after the first instruction (LDA), because the loop exit tests
INTERRUPT_DISABLE, which reset leaves set, so X stays 0. -/
theorem five_ops_program_yields_x_zero :
    fiveOpsOutcome = Except.ok (RunOutcome.halted (haltedState CPU.new fiveOpsOutcome)) ∧
    (haltedState CPU.new fiveOpsOutcome).register_x = 0 ∧
    (haltedState CPU.new fiveOpsOutcome).register_a = 0xC0 :=
  ⟨rfl, rfl, rfl⟩

/-- Claim C4, counterexample: the memory array has length 0xFFFF = 65535, so
the address 0xFFFF is NOT a valid memory location: both the byte read and
the byte write primitives fail with an index-out-of-bounds at 0xFFFF,
refuting the claim that every address in 0x0000 - 0xFFFF is valid. -/
theorem mem_top_address_out_of_bounds :
    CPU.new.mem_read 0xFFFF = Except.error (EmuError.indexOutOfBounds 0xFFFF) ∧
    CPU.new.mem_write 0xFFFF 0 = Except.error (EmuError.indexOutOfBounds 0xFFFF) :=
  ⟨rfl, rfl⟩

/-- Claim C4, amended: every address in 0x0000 - 0xFFFE is a valid memory
location: the byte read primitive returns a value, the byte write primitive
succeeds, and on a fresh CPU every such byte reads as zero. -/
theorem mem_valid_below_top (s : CPU) (addr : Nat) (h : addr < 0xFFFF) (v : Nat) :
    (∃ x, s.mem_read addr = Except.ok x) ∧
    (∃ t, s.mem_write addr v = Except.ok t) ∧
    CPU.new.mem_read addr = Except.ok 0 := by
  refine ⟨⟨s.memory addr, ?_⟩,
    ⟨{ s with memory := fun a => if a = addr then v else s.memory a }, ?_⟩, ?_⟩ <;>
    simp [CPU.mem_read, CPU.mem_write, MEM_LEN, CPU.new, h]

theorem mem_valid_below_top_witness :
    (0 : Nat) < 0xFFFF ∧
    ((∃ x, CPU.new.mem_read 0 = Except.ok x) ∧
     (∃ t, CPU.new.mem_write 0 7 = Except.ok t) ∧
     CPU.new.mem_read 0 = Except.ok 0) :=
  ⟨by decide, mem_valid_below_top CPU.new 0 (by decide) 7⟩

/-- Claim C7: every opcode byte outside the 26 populated table entries makes
the execute loop fail hard with UnknownOpcode as soon as it is fetched; it
never continues as a silent no-op. -/
theorem fetch_unknown_opcode_errors (fuel : Nat) (s : CPU) (b : Nat)
    (hb : s.mem_read s.program_counter = Except.ok b)
    (hnot : b ∉ valid_codes) :
    CPU.run (fuel + 1) s = Except.error (EmuError.unknownOpcode b) := by
  have hmap : OPCODES_MAP b = none := by
    unfold OPCODES_MAP
    rw [if_neg hnot]
  unfold CPU.run CPU.step
  simp only [hb, hmap]

theorem fetch_unknown_opcode_errors_witness :
    opcode02CPU.mem_read opcode02CPU.program_counter = Except.ok 2 ∧
    2 ∉ valid_codes ∧
    CPU.run 1 opcode02CPU = Except.error (EmuError.unknownOpcode 2) :=
  ⟨rfl, by decide, fetch_unknown_opcode_errors 0 opcode02CPU 2 rfl (by decide)⟩

lemma uznfStatus_of_zero (st : Nat) : uznfStatus st 0 = (st ||| 2) &&& 127 := by
  unfold uznfStatus
  simp

lemma uznfStatus_of_negative (st r : Nat) (h0 : r ≠ 0) (h7 : r &&& 128 ≠ 0) :
    uznfStatus st r = (st &&& 253) ||| 128 := by
  unfold uznfStatus
  simp [h0, h7]

lemma uznfStatus_of_small (st r : Nat) (h0 : r ≠ 0) (h7 : ¬(r &&& 128 ≠ 0)) :
    uznfStatus st r = (st &&& 253) &&& 127 := by
  unfold uznfStatus
  simp [h0, h7]

lemma uznf_bits (st r : Nat) (hst : st < 256) (hr : r < 256) :
    (uznfStatus (st ||| 65) r &&& 1 = 1) ∧
    (uznfStatus (st &&& 190) r &&& 1 = 0) ∧
    (uznfStatus (st ||| 65) r &&& 64 = 64) ∧
    (uznfStatus (st &&& 190) r &&& 64 = 0) ∧
    (uznfStatus (st ||| 65) r &&& 2 ≠ 0 ↔ r = 0) ∧
    (uznfStatus (st &&& 190) r &&& 2 ≠ 0 ↔ r = 0) ∧
    (uznfStatus (st ||| 65) r &&& 128 ≠ 0 ↔ 128 ≤ r) ∧
    (uznfStatus (st &&& 190) r &&& 128 ≠ 0 ↔ 128 ≤ r) := by
  have h7 := and128_ne_iff r hr
  obtain ⟨m1, m2, m3, m4, m5, m6, m7, m8, m9, m10, m11, m12, m13, m14, m15, m16,
    m17, m18, m19, m20, m21, m22, m23, m24⟩ := mask_table st hst
  by_cases hr0 : r = 0
  · subst hr0
    refine ⟨?_, ?_, ?_, ?_, ?_, ?_, ?_, ?_⟩ <;> rw [uznfStatus_of_zero]
    · exact m1
    · exact m13
    · exact m2
    · exact m14
    · rw [m3]; exact iff_of_true (by decide) rfl
    · rw [m15]; exact iff_of_true (by decide) rfl
    · rw [m4]; exact iff_of_false (by decide) (by omega)
    · rw [m16]; exact iff_of_false (by decide) (by omega)
  · by_cases hrb : r &&& 128 ≠ 0
    · have h128 : 128 ≤ r := h7.mp hrb
      refine ⟨?_, ?_, ?_, ?_, ?_, ?_, ?_, ?_⟩ <;> rw [uznfStatus_of_negative _ _ hr0 hrb]
      · exact m5
      · exact m17
      · exact m6
      · exact m18
      · rw [m7]; exact iff_of_false (by decide) hr0
      · rw [m19]; exact iff_of_false (by decide) hr0
      · rw [m8]; exact iff_of_true (by decide) h128
      · rw [m20]; exact iff_of_true (by decide) h128
    · have h128n : ¬(128 ≤ r) := fun hh => hrb (h7.mpr hh)
      refine ⟨?_, ?_, ?_, ?_, ?_, ?_, ?_, ?_⟩ <;> rw [uznfStatus_of_small _ _ hr0 hrb]
      · exact m9
      · exact m21
      · exact m10
      · exact m22
      · rw [m11]; exact iff_of_false (by decide) hr0
      · rw [m23]; exact iff_of_false (by decide) hr0
      · rw [m12]; exact iff_of_false (by decide) h128n
      · rw [m24]; exact iff_of_false (by decide) h128n

/-- Claim C3: for every addressing mode and operand read, ADC sets the
accumulator to (a + m + carry-in) mod 256, sets CARRY exactly when the
wrapped result is at most the prior accumulator value, and updates ZERO and
NEGATIVE from the result. -/
theorem adc_sets_accumulator_and_flags (s : CPU) (mode : AddressingMode)
    (s2 : CPU) (addr m : Nat) (hst : s.status < 256)
    (haddr : s.get_operand_address mode = Except.ok addr)
    (hm : s.mem_read addr = Except.ok m)
    (hrun : s.adc mode = Except.ok s2) :
    s2.register_a = (s.register_a + m + s.carry_bit) % 256 ∧
    ((s2.status &&& 0b00000001 ≠ 0) ↔ s2.register_a ≤ s.register_a) ∧
    ((s2.status &&& 0b00000010 ≠ 0) ↔ s2.register_a = 0) ∧
    ((s2.status &&& 0b10000000 ≠ 0) ↔ 128 ≤ s2.register_a) := by
  unfold CPU.adc at hrun
  simp only [haddr, hm] at hrun
  injection hrun with hrun
  subst hrun
  simp only [CPU.update_zero_and_negative_flags, apply_ite CPU.register_a,
    apply_ite CPU.status, ite_self]
  have hrlt : wadd8 (wadd8 s.register_a m) s.carry_bit < 256 := by
    simp only [wadd8]; omega
  obtain ⟨b1, b2, b3, b4, b5, b6, b7, b8⟩ := uznf_bits s.status _ hst hrlt
  by_cases hc : wadd8 (wadd8 s.register_a m) s.carry_bit ≤ s.register_a
  · simp only [if_pos hc]
    refine ⟨by simp only [wadd8]; omega, ?_, b5, b7⟩
    rw [b1]; exact iff_of_true (by decide) hc
  · simp only [if_neg hc]
    refine ⟨by simp only [wadd8]; omega, ?_, b6, b8⟩
    rw [b2]; exact iff_of_false (by decide) hc

theorem adc_sets_accumulator_and_flags_witness :
    CPU.new.adc AddressingMode.Immediate = Except.ok adcDemo ∧
    (adcDemo.register_a = (CPU.new.register_a + 0 + CPU.new.carry_bit) % 256 ∧
     ((adcDemo.status &&& 0b00000001 ≠ 0) ↔ adcDemo.register_a ≤ CPU.new.register_a) ∧
     ((adcDemo.status &&& 0b00000010 ≠ 0) ↔ adcDemo.register_a = 0) ∧
     ((adcDemo.status &&& 0b10000000 ≠ 0) ↔ 128 ≤ adcDemo.register_a)) :=
  ⟨rfl, adc_sets_accumulator_and_flags CPU.new AddressingMode.Immediate adcDemo 0 0
    (by decide) rfl rfl rfl⟩

/-- Claim C10: ADC updates the OVERFLOW flag (0x40) in lockstep with CARRY:
the source ors the status with 0b0100_0001 or ands it with 0b1011_1110, so
both flags are set exactly when the wrapped result is at most the prior
accumulator value, never from signed-overflow semantics. -/
theorem adc_overflow_lockstep_carry (s : CPU) (mode : AddressingMode) (s2 : CPU)
    (hst : s.status < 256) (hrun : s.adc mode = Except.ok s2) :
    ((s2.status &&& 0b01000000 ≠ 0) ↔ (s2.status &&& 0b00000001 ≠ 0)) ∧
    ((s2.status &&& 0b01000000 ≠ 0) ↔ s2.register_a ≤ s.register_a) := by
  unfold CPU.adc at hrun
  cases haddr : s.get_operand_address mode with
  | error e => simp only [haddr] at hrun; exact absurd hrun (by simp)
  | ok addr =>
    cases hm : s.mem_read addr with
    | error e => simp only [haddr, hm] at hrun; exact absurd hrun (by simp)
    | ok m =>
      simp only [haddr, hm] at hrun
      injection hrun with hrun
      subst hrun
      simp only [CPU.update_zero_and_negative_flags, apply_ite CPU.register_a,
        apply_ite CPU.status, ite_self]
      have hrlt : wadd8 (wadd8 s.register_a m) s.carry_bit < 256 := by
        simp only [wadd8]; omega
      obtain ⟨b1, b2, b3, b4, b5, b6, b7, b8⟩ := uznf_bits s.status _ hst hrlt
      by_cases hc : wadd8 (wadd8 s.register_a m) s.carry_bit ≤ s.register_a
      · simp only [if_pos hc]
        rw [b1, b3]
        exact ⟨by decide, iff_of_true (by decide) hc⟩
      · simp only [if_neg hc]
        rw [b2, b4]
        exact ⟨by decide, iff_of_false (by decide) hc⟩

theorem adc_overflow_lockstep_carry_witness :
    CPU.new.status < 256 ∧
    CPU.new.adc AddressingMode.Immediate = Except.ok adcDemo ∧
    (((adcDemo.status &&& 0b01000000 ≠ 0) ↔ (adcDemo.status &&& 0b00000001 ≠ 0)) ∧
     ((adcDemo.status &&& 0b01000000 ≠ 0) ↔ adcDemo.register_a ≤ CPU.new.register_a)) :=
  ⟨by decide, rfl,
    adc_overflow_lockstep_carry CPU.new AddressingMode.Immediate adcDemo (by decide) rfl⟩

/-- Claim C9: SBC sets the accumulator to (a - m - (1 - carry-in)) mod 256
and leaves the whole status byte unchanged, since the flag-update line of
the source is commented out. -/
theorem sbc_wraps_and_preserves_status (s : CPU) (mode : AddressingMode) (s2 : CPU)
    (addr m : Nat) (ha : s.register_a < 256) (hm256 : m < 256)
    (haddr : s.get_operand_address mode = Except.ok addr)
    (hm : s.mem_read addr = Except.ok m)
    (hrun : s.sbc mode = Except.ok s2) :
    (s2.register_a : Int) =
      ((s.register_a : Int) - (m : Int) - (1 - (s.carry_bit : Int))) % 256 ∧
    s2.status = s.status := by
  unfold CPU.sbc at hrun
  simp only [haddr, hm] at hrun
  injection hrun with hrun
  subst hrun
  refine ⟨?_, rfl⟩
  simp only [wsub8, CPU.carry_bit]
  by_cases hcb : s.status &&& 0b00000001 ≠ 0
  · simp only [if_pos hcb]
    push_cast
    omega
  · simp only [if_neg hcb]
    push_cast
    omega

theorem sbc_wraps_and_preserves_status_witness :
    CPU.new.sbc AddressingMode.Immediate = Except.ok sbcDemo ∧
    ((sbcDemo.register_a : Int) =
      ((CPU.new.register_a : Int) - ((0 : Nat) : Int) - (1 - (CPU.new.carry_bit : Int))) % 256 ∧
     sbcDemo.status = CPU.new.status) :=
  ⟨rfl, sbc_wraps_and_preserves_status CPU.new AddressingMode.Immediate sbcDemo 0 0
    (by decide) (by decide) rfl rfl rfl⟩

lemma load_ok_memory (s : CPU) (prog : List Nat) (t : CPU)
    (h : s.load prog = Except.ok t) :
    prog.length ≤ 0xFFFF - 0x8000 ∧
    t.memory 0xFFFC = 0x00 ∧
    t.memory 0xFFFD = 0x80 ∧
    (∀ i, i < prog.length →
      t.memory (0x8000 + i) =
        if 0x8000 + i = 0xFFFC then 0x00
        else if 0x8000 + i = 0xFFFD then 0x80
        else prog.getD i 0) := by
  unfold CPU.load at h
  by_cases hc : 0x8000 + prog.length ≤ MEM_LEN
  · rw [if_pos hc] at h
    unfold CPU.mem_write_u16 CPU.mem_write at h
    simp only [if_pos (show (0xFFFC : Nat) < MEM_LEN by decide),
      if_pos (show (0xFFFC : Nat) + 1 < MEM_LEN by decide)] at h
    injection h with h
    subst h
    refine ⟨by unfold MEM_LEN at hc; omega, rfl, rfl, ?_⟩
    intro i hi
    dsimp only
    rw [show (0xFFFC : Nat) + 1 = 0xFFFD from rfl]
    by_cases e2 : 0x8000 + i = 0xFFFD
    · rw [if_pos e2, if_neg (show ¬(0x8000 + i = 0xFFFC) from by omega), if_pos e2]
      rfl
    · rw [if_neg e2, if_neg e2]
      by_cases e1 : 0x8000 + i = 0xFFFC
      · rw [if_pos e1, if_pos e1]
      · rw [if_neg e1, if_neg e1,
          if_pos (show 0x8000 ≤ 0x8000 + i ∧ 0x8000 + i < 0x8000 + prog.length from
            ⟨by omega, by omega⟩),
          show 0x8000 + i - 0x8000 = i from by omega]
  · rw [if_neg hc] at h
    exact absurd h (by simp)

lemma load_ok_of_len (s : CPU) (prog : List Nat)
    (h : prog.length ≤ 0xFFFF - 0x8000) : ∃ t, s.load prog = Except.ok t := by
  unfold CPU.load
  rw [if_pos (show 0x8000 + prog.length ≤ MEM_LEN by unfold MEM_LEN; omega)]
  exact ⟨_, rfl⟩

/-- Claim C5: `load` succeeds exactly for programs of length at most
0xFFFF - 0x8000; a successful load copies the program bytes to memory from
0x8000 (except where the reset-vector write overlaps) and writes 0x8000
little-endian at 0xFFFC; a longer program is a hard index-out-of-bounds
failure, since the memory array has length 0xFFFF. -/
theorem load_copies_program_and_sets_reset_vector (s : CPU) (prog : List Nat) :
    ((∃ t, s.load prog = Except.ok t) ↔ prog.length ≤ 0xFFFF - 0x8000) ∧
    (∀ t, s.load prog = Except.ok t →
      (∀ i, i < prog.length →
        t.memory (0x8000 + i) =
          if 0x8000 + i = 0xFFFC then 0x00
          else if 0x8000 + i = 0xFFFD then 0x80
          else prog.getD i 0) ∧
      t.memory 0xFFFC = 0x00 ∧ t.memory 0xFFFD = 0x80) ∧
    (0xFFFF - 0x8000 < prog.length →
      s.load prog = Except.error (EmuError.indexOutOfBounds (0x8000 + prog.length))) := by
  refine ⟨⟨fun ht => ?_, fun h => load_ok_of_len s prog h⟩, ?_, ?_⟩
  · obtain ⟨t, ht⟩ := ht
    exact (load_ok_memory s prog t ht).1
  · intro t ht
    obtain ⟨hlen, hFC, hFD, hcopy⟩ := load_ok_memory s prog t ht
    exact ⟨hcopy, hFC, hFD⟩
  · intro hgt
    unfold CPU.load
    rw [if_neg (by unfold MEM_LEN; omega)]

theorem load_copies_program_and_sets_reset_vector_witness :
    ((∃ t, CPU.new.load [7] = Except.ok t) ↔ ([7] : List Nat).length ≤ 0xFFFF - 0x8000) ∧
    (∀ t, CPU.new.load [7] = Except.ok t →
      (∀ i, i < ([7] : List Nat).length →
        t.memory (0x8000 + i) =
          if 0x8000 + i = 0xFFFC then 0x00
          else if 0x8000 + i = 0xFFFD then 0x80
          else ([7] : List Nat).getD i 0) ∧
      t.memory 0xFFFC = 0x00 ∧ t.memory 0xFFFD = 0x80) ∧
    (0xFFFF - 0x8000 < ([7] : List Nat).length →
      CPU.new.load [7] = Except.error (EmuError.indexOutOfBounds (0x8000 + ([7] : List Nat).length))) :=
  load_copies_program_and_sets_reset_vector CPU.new [7]

lemma reset_ok_fields (t u : CPU) (h : t.reset = Except.ok u) :
    t.mem_read_u16 0xFFFC = Except.ok u.program_counter ∧
    u.register_a = 0 ∧ u.register_x = 0 ∧ u.register_y = 0 ∧
    u.stack_pointer = 0xFD ∧ u.status = 0b00100100 := by
  unfold CPU.reset at h
  cases hpc : t.mem_read_u16 0xFFFC with
  | error e =>
    simp only [hpc] at h
    exact absurd h (by simp)
  | ok pc =>
    simp only [hpc] at h
    injection h with h
    subst h
    exact ⟨rfl, rfl, rfl, rfl, rfl, rfl⟩

/-- Claim C6: after any successful `load` followed by `reset`, the program
counter is 0x8000, the accumulator and index registers are 0, the stack
pointer is 0xFD and the status byte is 0b0010_0100; and in general `reset`
sets the program counter from the little-endian word at 0xFFFC. -/
theorem reset_after_load_sets_defaults (s : CPU) (prog : List Nat) (s1 s2 : CPU)
    (hl : s.load prog = Except.ok s1) (hr : s1.reset = Except.ok s2) :
    s2.program_counter = 0x8000 ∧ s2.register_a = 0 ∧ s2.register_x = 0 ∧
    s2.register_y = 0 ∧ s2.stack_pointer = 0xFD ∧ s2.status = 0b00100100 ∧
    (∀ (t u : CPU), t.reset = Except.ok u →
      t.mem_read_u16 0xFFFC = Except.ok u.program_counter) := by
  obtain ⟨hpcr, ha, hx, hy, hsp, hst⟩ := reset_ok_fields s1 s2 hr
  obtain ⟨hlen, hFC, hFD, hcopy⟩ := load_ok_memory s prog s1 hl
  have hread : s1.mem_read_u16 0xFFFC = Except.ok 0x8000 := by
    have r1 : s1.mem_read 0xFFFC = Except.ok 0 := by
      unfold CPU.mem_read
      rw [if_pos (show (0xFFFC : Nat) < MEM_LEN by decide), hFC]
    have r2 : s1.mem_read (0xFFFC + 1) = Except.ok 0x80 := by
      unfold CPU.mem_read
      rw [show (0xFFFC : Nat) + 1 = 0xFFFD from by norm_num,
        if_pos (show (0xFFFD : Nat) < MEM_LEN by decide), hFD]
    unfold CPU.mem_read_u16
    simp only [r1, r2]
    rfl
  rw [hread] at hpcr
  injection hpcr with hpcr
  exact ⟨hpcr.symm, ha, hx, hy, hsp, hst, fun t u hu => (reset_ok_fields t u hu).1⟩

theorem reset_after_load_sets_defaults_witness :
    CPU.new.load [0] = Except.ok loadedOne ∧
    loadedOne.reset = Except.ok resetOne ∧
    (resetOne.program_counter = 0x8000 ∧ resetOne.register_a = 0 ∧
     resetOne.register_x = 0 ∧ resetOne.register_y = 0 ∧
     resetOne.stack_pointer = 0xFD ∧ resetOne.status = 0b00100100 ∧
     (∀ (t u : CPU), t.reset = Except.ok u →
       t.mem_read_u16 0xFFFC = Except.ok u.program_counter)) :=
  ⟨rfl, rfl, reset_after_load_sets_defaults CPU.new [0] loadedOne resetOne rfl rfl⟩

/-- Claim C8: resolving the Indirect_X mode computes the pointer
(operand byte + X) wrapped to 8 bits, and returns the little-endian word
whose low byte sits at the pointer and whose high byte sits at pointer + 1
wrapped within the zero page; the resolver takes the processor by immutable
reference, so it modifies no processor state. -/
theorem indirect_x_resolves_zero_page_pointer (s : CPU)
    (hmem : ∀ a, s.memory a < 256) (hpc : s.program_counter < 0xFFFF) :
    s.get_operand_address AddressingMode.Indirect_X =
      Except.ok
        (s.memory (((s.memory s.program_counter + s.register_x) % 256 + 1) % 256) * 256 +
          s.memory ((s.memory s.program_counter + s.register_x) % 256)) := by
  have h0 : s.mem_read s.program_counter = Except.ok (s.memory s.program_counter) := by
    unfold CPU.mem_read MEM_LEN
    rw [if_pos hpc]
  have hptrlt : (s.memory s.program_counter + s.register_x) % 256 < MEM_LEN := by
    unfold MEM_LEN; omega
  have h1 : s.mem_read ((s.memory s.program_counter + s.register_x) % 256) =
      Except.ok (s.memory ((s.memory s.program_counter + s.register_x) % 256)) := by
    unfold CPU.mem_read
    rw [if_pos hptrlt]
  have hptr2lt : ((s.memory s.program_counter + s.register_x) % 256 + 1) % 256 < MEM_LEN := by
    unfold MEM_LEN; omega
  have h2 : s.mem_read (((s.memory s.program_counter + s.register_x) % 256 + 1) % 256) =
      Except.ok (s.memory (((s.memory s.program_counter + s.register_x) % 256 + 1) % 256)) := by
    unfold CPU.mem_read
    rw [if_pos hptr2lt]
  unfold CPU.get_operand_address
  simp only [h0, wadd8, h1, h2]
  rw [shl8_or _ (hmem _) _ (hmem _)]

theorem indirect_x_resolves_zero_page_pointer_witness :
    CPU.new.program_counter < 0xFFFF ∧
    CPU.new.get_operand_address AddressingMode.Indirect_X = Except.ok 0 :=
  ⟨by decide, indirect_x_resolves_zero_page_pointer CPU.new
    (fun _ => show (0 : Nat) < 256 by decide) (by decide)⟩

end NES
